import Mathlib

/-!
Shallow embedding of the PGL library (pgl/math.h, pgl/primitive.h,
pgl/controller.h) in Lean 4, together with theorems checking the
natural-language specification against it.

C++ `double` arithmetic is modelled by real numbers; OpenGL display lists
are modelled as lists of submitted (position, normal) pairs; the OpenGL
modelview product applied to a submitted vertex is modelled by
`Transform.applyPoint` (column-major homogeneous action, as performed by
`glMultMatrixd` on `transform.data`).
-/

namespace PGL

noncomputable section

/-- 3-component vector (`pgl::Vector3`, math.h). -/
@[ext]
structure Vector3 where
  x : ℝ
  y : ℝ
  z : ℝ

namespace Vector3

/-- `operator-()` (unary negation). -/
instance : Neg Vector3 :=
  ⟨fun v => ⟨-v.x, -v.y, -v.z⟩⟩

/-- `operator+(Vector3)`. -/
instance : Add Vector3 :=
  ⟨fun a b => ⟨a.x + b.x, a.y + b.y, a.z + b.z⟩⟩

/-- `operator-(Vector3)`. -/
instance : Sub Vector3 :=
  ⟨fun a b => ⟨a.x - b.x, a.y - b.y, a.z - b.z⟩⟩

/-- `operator*(double)` (scalar multiplication on the right). -/
def smul (v : Vector3) (r : ℝ) : Vector3 :=
  ⟨v.x * r, v.y * r, v.z * r⟩

/-- `operator*(Vector3)` (elementwise product). -/
def emul (a b : Vector3) : Vector3 :=
  ⟨a.x * b.x, a.y * b.y, a.z * b.z⟩

/-- `operator/(double)` (scalar division). -/
def sdiv (v : Vector3) (r : ℝ) : Vector3 :=
  ⟨v.x / r, v.y / r, v.z / r⟩

/-- `cross(Vector3)`. -/
def cross (a b : Vector3) : Vector3 :=
  ⟨a.y * b.z - a.z * b.y, a.z * b.x - a.x * b.z, a.x * b.y - a.y * b.x⟩

/-- `normsq()`. -/
def normsq (v : Vector3) : ℝ :=
  v.x * v.x + v.y * v.y + v.z * v.z

/-- `norm()`. -/
def norm (v : Vector3) : ℝ :=
  Real.sqrt v.normsq

end Vector3

/-- Homogeneous coordinate transform (`pgl::Transform`, math.h),
column-major storage: field `dN` is `data[N]`, so the translation column
is `(d12, d13, d14)` and rotation entry (row r, column c) is `d(4c+r)`. -/
@[ext]
structure Transform where
  d0 : ℝ
  d1 : ℝ
  d2 : ℝ
  d3 : ℝ
  d4 : ℝ
  d5 : ℝ
  d6 : ℝ
  d7 : ℝ
  d8 : ℝ
  d9 : ℝ
  d10 : ℝ
  d11 : ℝ
  d12 : ℝ
  d13 : ℝ
  d14 : ℝ
  d15 : ℝ

namespace Transform

/-- `Transform::set(axis, angle, translation)` — Rodrigues' rotation
formula entries, exactly as written in math.h (the axis is used as given,
without normalization). -/
def setAxisAngle (axis : Vector3) (angle : ℝ) (translation : Vector3) : Transform :=
  let s := Real.sin angle
  let c := Real.cos angle
  let c1 := 1 - c
  let x := axis.x
  let y := axis.y
  let z := axis.z
  { d0 := c + x * x * c1, d1 := y * x * c1 + z * s, d2 := z * x * c1 - y * s, d3 := 0
    d4 := x * y * c1 - z * s, d5 := c + y * y * c1, d6 := z * y * c1 + x * s, d7 := 0
    d8 := x * z * c1 + y * s, d9 := y * z * c1 - x * s, d10 := c + z * z * c1, d11 := 0
    d12 := translation.x, d13 := translation.y, d14 := translation.z, d15 := 1 }

/-- `Transform::set(rotation, translation)` — intrinsic roll-pitch-yaw
Euler angles, exactly as written in math.h (`rotation[2]` is yaw about z,
`rotation[1]` pitch about y, `rotation[0]` roll about x). -/
def setEuler (rotation : Vector3) (translation : Vector3) : Transform :=
  let sa := Real.sin rotation.z
  let ca := Real.cos rotation.z
  let sb := Real.sin rotation.y
  let cb := Real.cos rotation.y
  let sg := Real.sin rotation.x
  let cg := Real.cos rotation.x
  { d0 := ca * cb, d1 := sa * cb, d2 := -sb, d3 := 0
    d4 := ca * sb * sg - sa * cg, d5 := sa * sb * sg + ca * cg, d6 := cb * sg, d7 := 0
    d8 := ca * sb * cg + sa * sg, d9 := sa * sb * cg - ca * sg, d10 := cb * cg, d11 := 0
    d12 := translation.x, d13 := translation.y, d14 := translation.z, d15 := 1 }

/-- `Transform::operator*(Transform)`:
`result[ii+jj*4] = sum_kk data[ii+kk*4] * rhs.data[jj*4+kk]`. -/
def mul (a b : Transform) : Transform :=
  { d0 := a.d0 * b.d0 + a.d4 * b.d1 + a.d8 * b.d2 + a.d12 * b.d3
    d1 := a.d1 * b.d0 + a.d5 * b.d1 + a.d9 * b.d2 + a.d13 * b.d3
    d2 := a.d2 * b.d0 + a.d6 * b.d1 + a.d10 * b.d2 + a.d14 * b.d3
    d3 := a.d3 * b.d0 + a.d7 * b.d1 + a.d11 * b.d2 + a.d15 * b.d3
    d4 := a.d0 * b.d4 + a.d4 * b.d5 + a.d8 * b.d6 + a.d12 * b.d7
    d5 := a.d1 * b.d4 + a.d5 * b.d5 + a.d9 * b.d6 + a.d13 * b.d7
    d6 := a.d2 * b.d4 + a.d6 * b.d5 + a.d10 * b.d6 + a.d14 * b.d7
    d7 := a.d3 * b.d4 + a.d7 * b.d5 + a.d11 * b.d6 + a.d15 * b.d7
    d8 := a.d0 * b.d8 + a.d4 * b.d9 + a.d8 * b.d10 + a.d12 * b.d11
    d9 := a.d1 * b.d8 + a.d5 * b.d9 + a.d9 * b.d10 + a.d13 * b.d11
    d10 := a.d2 * b.d8 + a.d6 * b.d9 + a.d10 * b.d10 + a.d14 * b.d11
    d11 := a.d3 * b.d8 + a.d7 * b.d9 + a.d11 * b.d10 + a.d15 * b.d11
    d12 := a.d0 * b.d12 + a.d4 * b.d13 + a.d8 * b.d14 + a.d12 * b.d15
    d13 := a.d1 * b.d12 + a.d5 * b.d13 + a.d9 * b.d14 + a.d13 * b.d15
    d14 := a.d2 * b.d12 + a.d6 * b.d13 + a.d10 * b.d14 + a.d14 * b.d15
    d15 := a.d3 * b.d12 + a.d7 * b.d13 + a.d11 * b.d14 + a.d15 * b.d15 }

instance : Mul Transform :=
  ⟨mul⟩

/-- `Transform::operator*(Vector3)` — note that, as written in math.h, it
multiplies by the first three entries of each storage *column*
(`data[0], data[1], data[2]` for the x component), i.e. by the transpose
of the rotation block, and ignores the translation. -/
def applyVec (t : Transform) (v : Vector3) : Vector3 :=
  ⟨t.d0 * v.x + t.d1 * v.y + t.d2 * v.z,
   t.d4 * v.x + t.d5 * v.y + t.d6 * v.z,
   t.d8 * v.x + t.d9 * v.y + t.d10 * v.z⟩

/-- Action of the transform on a submitted vertex, as performed by the
render backend (`glMultMatrixd(transform.data)` with column-major data):
`p ↦ R·p + t` with rotation entry (row r, col c) at `data[4c+r]`. -/
def applyPoint (t : Transform) (v : Vector3) : Vector3 :=
  ⟨t.d0 * v.x + t.d4 * v.y + t.d8 * v.z + t.d12,
   t.d1 * v.x + t.d5 * v.y + t.d9 * v.z + t.d13,
   t.d2 * v.x + t.d6 * v.y + t.d10 * v.z + t.d14⟩

end Transform

/-- `pgl::Rotation` — transform with zero translation (math.h). -/
def Rotation (rotation : Vector3) : Transform :=
  Transform.setEuler rotation ⟨0, 0, 0⟩

/-- `pgl::Translation` — transform with identity rotation (math.h). -/
def Translation (translation : Vector3) : Transform :=
  Transform.setEuler ⟨0, 0, 0⟩ translation

/-- `#define FACETS 20` (primitive.h). Must be divisible by 4. -/
def FACETS : ℕ := 20

/-- `Primitive::normal(v)` — the normal submitted to the backend is
`v / v.normsq()`: division by the *squared* norm, exactly as written in
primitive.h. -/
def primNormal (v : Vector3) : Vector3 :=
  v.sdiv v.normsq

/-- The unit-length normalization `v / |v|`. This follows the wording of
the specification (which says the submitted normal is the normalized
vector); it is stated separately so it can be compared with `primNormal`,
the computation the code performs. -/
def unitNormalize (v : Vector3) : Vector3 :=
  v.sdiv v.norm

/-- Transform assigned by `Primitive::align(start, end)`:
`vec = (end-start)/|end-start|`, `angle = acos(vec.z)`,
`axis = (-vec.y, vec.x, 0)` (the cross product `(0,0,1) × vec`, used
*without* normalization), and
`transform = Transform(axis, angle, start) * Translation(0,0,len/2)`. -/
def alignTransform (start endp : Vector3) : Transform :=
  let vec0 := endp - start
  let len := vec0.norm
  let vec := vec0.sdiv len
  let angle := Real.arccos vec.z
  let axis : Vector3 := ⟨-vec.y, vec.x, 0⟩
  (Transform.setAxisAngle axis angle start).mul (Translation ⟨0, 0, len / 2⟩)

/-- Length returned by `Primitive::align(start, end)`. -/
def alignLen (start endp : Vector3) : ℝ :=
  (endp - start).norm

/-- A triangle of the display list: the normal in effect (set by
`glNormal3d`) and the three submitted vertex positions. -/
structure Tri where
  n : Vector3
  v1 : Vector3
  v2 : Vector3
  v3 : Vector3

/-- `Primitive::quad(v1,v2,v3,v4)` under a fixed current normal `n`:
two triangles `(v1,v2,v3)` and `(v3,v4,v1)`. -/
def quadTris (n a b c d : Vector3) : List Tri :=
  [⟨n, a, b, c⟩, ⟨n, c, d, a⟩]

/-- `Box::make(size)` (primitive.h): six quads between the eight corners
at `±size/2`, each preceded by a `glNormal3d` face normal. -/
def boxMake (size : Vector3) : List Tri :=
  let s2 := size.sdiv 2
  let vppp : Vector3 := ⟨s2.x, s2.y, s2.z⟩
  let vnpp : Vector3 := ⟨-s2.x, s2.y, s2.z⟩
  let vnnp : Vector3 := ⟨-s2.x, -s2.y, s2.z⟩
  let vpnp : Vector3 := ⟨s2.x, -s2.y, s2.z⟩
  let vppn : Vector3 := ⟨s2.x, s2.y, -s2.z⟩
  let vnpn : Vector3 := ⟨-s2.x, s2.y, -s2.z⟩
  let vnnn : Vector3 := ⟨-s2.x, -s2.y, -s2.z⟩
  let vpnn : Vector3 := ⟨s2.x, -s2.y, -s2.z⟩
  quadTris ⟨0, 0, 1⟩ vnnp vpnp vppp vnpp ++
  quadTris ⟨0, 0, -1⟩ vnnn vnpn vppn vpnn ++
  quadTris ⟨1, 0, 0⟩ vpnn vppn vppp vpnp ++
  quadTris ⟨-1, 0, 0⟩ vnnn vnnp vnpp vnpn ++
  quadTris ⟨0, 1, 0⟩ vnpn vnpp vppp vppn ++
  quadTris ⟨0, -1, 0⟩ vnnn vpnn vpnp vnnp

/-- `Sphere::vertex(v)` — submits `normal(v)` and then the position, so
the pair recorded for each vertex is `(v, primNormal v)`. -/
def sphereVertex (v : Vector3) : Vector3 × Vector3 :=
  (v, primNormal v)

/-- `Primitive::triangle` as instantiated by `Sphere`. -/
def sphereTri (a b c : Vector3) : List (Vector3 × Vector3) :=
  [sphereVertex a, sphereVertex b, sphereVertex c]

/-- `Primitive::quad` as instantiated by `Sphere`. -/
def sphereQuad (a b c d : Vector3) : List (Vector3 × Vector3) :=
  sphereTri a b c ++ sphereTri c d a

/-- `Sphere::make(radius)` (primitive.h): latitude rings
`jj = 0..FACETS/2-1` with `phi = jj*2*pi/FACETS`, ring radius
`radius*sin(phi)` and height `-radius*cos(phi)`; longitude
`ii = 0..FACETS-1`; one quad per (jj, ii). -/
def sphereMake (radius : ℝ) : List (Vector3 × Vector3) :=
  (List.range (FACETS / 2)).flatMap fun jj =>
    let phi1 := (jj : ℝ) * 2 * Real.pi / FACETS
    let phi2 := ((jj : ℝ) + 1) * 2 * Real.pi / FACETS
    let r1 := radius * Real.sin phi1
    let r2 := radius * Real.sin phi2
    let z1 := -radius * Real.cos phi1
    let z2 := -radius * Real.cos phi2
    (List.range FACETS).flatMap fun ii =>
      let theta1 := (ii : ℝ) * 2 * Real.pi / FACETS
      let theta2 := ((ii : ℝ) + 1) * 2 * Real.pi / FACETS
      sphereQuad ⟨r1 * Real.cos theta1, r1 * Real.sin theta1, z1⟩
                 ⟨r1 * Real.cos theta2, r1 * Real.sin theta2, z1⟩
                 ⟨r2 * Real.cos theta2, r2 * Real.sin theta2, z2⟩
                 ⟨r2 * Real.cos theta1, r2 * Real.sin theta1, z2⟩

/-- `Cylinder::vertex(v)` — the override submits
`normal({v.x, v.y, 0})` (the XY-projection fed to `Primitive::normal`)
before every position, so the pair recorded is
`(v, primNormal ⟨v.x, v.y, 0⟩)`. -/
def cylVertex (v : Vector3) : Vector3 × Vector3 :=
  (v, primNormal ⟨v.x, v.y, 0⟩)

/-- `Primitive::triangle` as instantiated by `Cylinder`. -/
def cylTri (a b c : Vector3) : List (Vector3 × Vector3) :=
  [cylVertex a, cylVertex b, cylVertex c]

/-- `Primitive::quad` as instantiated by `Cylinder`. -/
def cylQuad (a b c d : Vector3) : List (Vector3 × Vector3) :=
  cylTri a b c ++ cylTri c d a

/-- Lateral surface of `Cylinder::make`: `FACETS` quads between the
bottom circle of `radius` at `z=-length/2` and the top circle of
`endradius` at `z=+length/2`. -/
def cylinderBody (length radius endradius : ℝ) : List (Vector3 × Vector3) :=
  (List.range FACETS).flatMap fun ii =>
    let theta1 := (ii : ℝ) * 2 * Real.pi / FACETS
    let theta2 := ((ii : ℝ) + 1) * 2 * Real.pi / FACETS
    cylQuad ⟨radius * Real.cos theta1, radius * Real.sin theta1, -length / 2⟩
            ⟨radius * Real.cos theta2, radius * Real.sin theta2, -length / 2⟩
            ⟨endradius * Real.cos theta2, endradius * Real.sin theta2, length / 2⟩
            ⟨endradius * Real.cos theta1, endradius * Real.sin theta1, length / 2⟩

/-- Top triangle-fan cap of `Cylinder::make`. The fan opens with
`normal({0,0,1})`, but `vertex` is virtual and the `Cylinder::vertex`
override re-submits the projected normal before each position, so the
normal in effect at every submitted vertex is the projected one. -/
def cylinderTop (length endradius : ℝ) : List (Vector3 × Vector3) :=
  (List.range FACETS).map fun ii =>
    let theta := (ii : ℝ) * 2 * Real.pi / FACETS
    cylVertex ⟨endradius * Real.cos theta, endradius * Real.sin theta, length / 2⟩

/-- Bottom triangle-fan cap of `Cylinder::make`
(`theta = ii*2*pi / (-FACETS)`). -/
def cylinderBottom (length radius : ℝ) : List (Vector3 × Vector3) :=
  (List.range FACETS).map fun ii =>
    let theta := (ii : ℝ) * 2 * Real.pi / -(FACETS : ℝ)
    cylVertex ⟨radius * Real.cos theta, radius * Real.sin theta, -length / 2⟩

/-- `Cylinder::make(length, radius, endradius)` (primitive.h): a negative
`endradius` is replaced by `radius`, then body and the two fan caps are
emitted. -/
def cylinderMake (length radius endradius : ℝ) : List (Vector3 × Vector3) :=
  let er := if endradius < 0 then radius else endradius
  cylinderBody length radius er ++ cylinderTop length er ++ cylinderBottom length radius

/-- A child primitive of an `Arrow`: its baked mesh, local transform and
mutable color. -/
@[ext]
structure ChildPrim where
  mesh : List (Vector3 × Vector3)
  transform : Transform
  color : Vector3

/-- `pgl::Arrow`: its own color and transform plus the two attached
children (`body_`, a `Cylinder`, and `head_`, a `Cone`). -/
structure Arrow where
  color : Vector3
  transform : Transform
  body : ChildPrim
  head : ChildPrim

/-- The children of an `Arrow` in attachment order. -/
def Arrow.children (a : Arrow) : List ChildPrim :=
  [a.body, a.head]

/-- `Arrow::make(length, radius, headlength, headradius)` (primitive.h):
negative `headlength` defaults to `radius*6`, negative `headradius` to
`headlength/3`; attaches `new Cylinder(length, radius)` (end radius left
at its `-1` default) and `new Cone(headlength, headradius)` (a
`Cylinder` with end radius 0) translated by `(0,0,length/2)`. Transforms
default to the identity (`Object()` constructor) and colors to white
(`Primitive()` constructor). -/
def arrowMake (length radius headlength headradius : ℝ) : Arrow :=
  let hl := if headlength < 0 then radius * 6 else headlength
  let hr := if headradius < 0 then hl / 3 else headradius
  { color := ⟨1, 1, 1⟩
    transform := Transform.setEuler ⟨0, 0, 0⟩ ⟨0, 0, 0⟩
    body := { mesh := cylinderMake length radius (-1)
              transform := Transform.setEuler ⟨0, 0, 0⟩ ⟨0, 0, 0⟩
              color := ⟨1, 1, 1⟩ }
    head := { mesh := cylinderMake hl hr 0
              transform := Translation ⟨0, 0, length / 2⟩
              color := ⟨1, 1, 1⟩ } }

/-- Render-backend commands emitted while drawing (§6 contract). -/
inductive RenderCmd where
  | setColor (c : Vector3)
  | pushMatrix
  | multMatrix (t : Transform)
  | callList (mesh : List (Vector3 × Vector3))
  | popMatrix

/-- `Primitive::draw()` for a childless primitive: set the draw color
from the primitive's own color, push and multiply its transform, call
the display list, pop. -/
def ChildPrim.drawCmds (p : ChildPrim) : List RenderCmd :=
  [.setColor p.color, .pushMatrix, .multMatrix p.transform, .callList p.mesh, .popMatrix]

/-- The first two statements of `Arrow::draw()`:
`body_->color = color; head_->color = color;`. -/
def arrowSetChildColors (a : Arrow) : Arrow :=
  { a with body := { a.body with color := a.color }
           head := { a.head with color := a.color } }

/-- `Arrow::draw()`: copy the arrow's color into both children, then
`Object::draw()` (push, multiply the arrow transform, draw the children
in attachment order, pop). Returns the mutated arrow and the emitted
command stream. -/
def arrowDraw (a : Arrow) : Arrow × List RenderCmd :=
  let a2 := arrowSetChildColors a
  (a2, RenderCmd.pushMatrix :: RenderCmd.multMatrix a2.transform ::
        (a2.body.drawCmds ++ a2.head.drawCmds ++ [RenderCmd.popMatrix]))

/-- The loop state of `Capsule::make`: the ring-index adjustments
`jadj1`, `jadj2` and the per-ring Z offsets `zadj1`, `zadj2`. -/
@[ext]
structure CapState where
  jadj1 : ℤ
  jadj2 : ℤ
  zadj1 : ℝ
  zadj2 : ℝ

/-- `Capsule::vertex(v, z)` — submits `normal({v.x, v.y, v.z - z})`
(the vector from the ring's hemisphere center fed to
`Primitive::normal`) before the position. -/
def capVertex (v : Vector3) (z : ℝ) : Vector3 × Vector3 :=
  (v, primNormal ⟨v.x, v.y, v.z - z⟩)

/-- `Capsule::triangle`. -/
def capTri (a : Vector3) (za : ℝ) (b : Vector3) (zb : ℝ) (c : Vector3) (zc : ℝ) :
    List (Vector3 × Vector3) :=
  [capVertex a za, capVertex b zb, capVertex c zc]

/-- `Capsule::quad`. -/
def capQuad (a : Vector3) (za : ℝ) (b : Vector3) (zb : ℝ) (c : Vector3) (zc : ℝ)
    (d : Vector3) (zd : ℝ) : List (Vector3 × Vector3) :=
  capTri a za b zb c zc ++ capTri c zc d zd a za

/-- One iteration body of the `Capsule::make` ring loop, after the
state adjustment: `phi = (jj+jadj)*2*pi/FACETS`, ring radius
`radius*sin(phi)`, ring height `-radius*cos(phi)+zadj`, and `FACETS`
quads around the circumference. -/
def capBand (radius : ℝ) (jj : ℕ) (st : CapState) : List (Vector3 × Vector3) :=
  let phi1 := (((jj : ℤ) + st.jadj1 : ℤ) : ℝ) * 2 * Real.pi / FACETS
  let phi2 := (((jj : ℤ) + st.jadj2 : ℤ) : ℝ) * 2 * Real.pi / FACETS
  let r1 := radius * Real.sin phi1
  let r2 := radius * Real.sin phi2
  let z1 := -radius * Real.cos phi1 + st.zadj1
  let z2 := -radius * Real.cos phi2 + st.zadj2
  (List.range FACETS).flatMap fun ii =>
    let theta1 := (ii : ℝ) * 2 * Real.pi / FACETS
    let theta2 := ((ii : ℝ) + 1) * 2 * Real.pi / FACETS
    capQuad ⟨r1 * Real.cos theta1, r1 * Real.sin theta1, z1⟩ st.zadj1
            ⟨r1 * Real.cos theta2, r1 * Real.sin theta2, z1⟩ st.zadj1
            ⟨r2 * Real.cos theta2, r2 * Real.sin theta2, z2⟩ st.zadj2
            ⟨r2 * Real.cos theta1, r2 * Real.sin theta1, z2⟩ st.zadj2

/-- The state adjustment performed at the top of iteration `jj` of the
`Capsule::make` loop: at `jj = FACETS/4` move the second ring row to the
body (`jadj2--; zadj2 += length`); at `jj = FACETS/4 + 1` move the first
row to the top cap (`jadj1--; zadj1 += length`). -/
def capStep (length : ℝ) (jj : ℕ) (st : CapState) : CapState :=
  if jj = FACETS / 4 then
    { st with jadj2 := st.jadj2 - 1, zadj2 := st.zadj2 + length }
  else if jj = FACETS / 4 + 1 then
    { st with jadj1 := st.jadj1 - 1, zadj1 := st.zadj1 + length }
  else st

/-- The `Capsule::make` loop, iterating `jj` with the given remaining
iteration count (`fuel`) and carrying the adjustment state. -/
def capsuleLoop (length radius : ℝ) : ℕ → ℕ → CapState → List (Vector3 × Vector3)
  | _, 0, _ => []
  | jj, fuel + 1, st =>
      let st2 := capStep length jj st
      capBand radius jj st2 ++ capsuleLoop length radius (jj + 1) fuel st2

/-- `Capsule::make(length, radius)` (primitive.h): rings
`jj = 0..FACETS/2`, starting at the bottom cap with
`jadj1 = 0, jadj2 = 1, zadj1 = zadj2 = -length/2`. -/
def capsuleMake (length radius : ℝ) : List (Vector3 × Vector3) :=
  capsuleLoop length radius 0 (FACETS / 2 + 1) ⟨0, 1, -length / 2, -length / 2⟩

/-- Closed form of the `Capsule::make` loop state in effect during
iteration `jj` (i.e. after the adjustment at the top of the iteration):
both ring rows sit in the bottom-cap frame (`-length/2`) until the ring
index reaches `FACETS/4`, at which point the second row switches to the
top-cap frame (`+length/2`), followed one iteration later by the first
row. -/
def capStateAt (length : ℝ) (jj : ℕ) : CapState :=
  ⟨if jj < FACETS / 4 + 1 then 0 else -1,
   if jj < FACETS / 4 then 1 else 0,
   if jj < FACETS / 4 + 1 then -length / 2 else length / 2,
   if jj < FACETS / 4 then -length / 2 else length / 2⟩

/-- Diagnostics emitted to `std::cerr` by `Model::make`. -/
inductive ModelDiag where
  | invalidSTL
  | truncatedAt (ii numint : ℕ)
deriving DecidableEq, Repr

/-- Result of `Model::make`: the complete 50-byte triangle records that
were loaded into the display list, and the diagnostics emitted. The
function is total — construction always returns (it never aborts or
throws). -/
structure ModelResult where
  triangles : List (List ℕ)
  diags : List ModelDiag
deriving DecidableEq

/-- The triangle-reading loop of `Model::make`: at each iteration
`ifs.read((char*)&t, 50)` succeeds only when 50 bytes remain
(`ifs.good()` fails on a short read); on failure it reports
`"truncated at triangle ii of numint"` and breaks. -/
def modelReadLoop (numint : ℕ) : ℕ → ℕ → List ℕ → ModelResult
  | 0, _, _ => ⟨[], []⟩
  | fuel + 1, ii, data =>
      if data.length < 50 then ⟨[], [.truncatedAt ii numint]⟩
      else
        let rest := modelReadLoop numint fuel (ii + 1) (data.drop 50)
        ⟨data.take 50 :: rest.triangles, rest.diags⟩

/-- The 4-byte little-endian triangle count of the STL header:
`numchar[0] + (numchar[1]<<8) + (numchar[2]<<16) + (numchar[3]<<24)`. -/
def stlCount (bytes : List ℕ) : ℕ :=
  bytes.getD 80 0 + bytes.getD 81 0 * 256 + bytes.getD 82 0 * 65536 +
    bytes.getD 83 0 * 16777216

/-- `Model::make(file, scale)` (primitive.h), with the opened stream
modelled by its byte contents: read the 80-byte header and the 4-byte
declared triangle count (failing with a diagnostic and empty geometry if
fewer than 84 bytes exist), then read 50-byte records until the declared
count is reached or a read comes up short. -/
def modelMake (bytes : List ℕ) : ModelResult :=
  if bytes.length < 84 then ⟨[], [.invalidSTL]⟩
  else
    let numint := stlCount bytes
    modelReadLoop numint numint 0 (bytes.drop 84)

/-- `PGL_RELEASE` (pgl.h). -/
def PGL_RELEASE : ℤ := 0

/-- `PGL_PRESS` (pgl.h). -/
def PGL_PRESS : ℤ := 1

/-- `PGL_MOUSE_BUTTON_LEFT` (pgl.h). -/
def PGL_MOUSE_BUTTON_LEFT : ℤ := 0

/-- `PGL_MOUSE_BUTTON_RIGHT` (pgl.h). -/
def PGL_MOUSE_BUTTON_RIGHT : ℤ := 1

/-- `PGL_MOUSE_BUTTON_MIDDLE` (pgl.h). -/
def PGL_MOUSE_BUTTON_MIDDLE : ℤ := 2

/-- The `OrbitController` mode enumeration. -/
inductive OrbitMode where
  | modeNone
  | modeAngle
  | modeDistance
  | modeCenter
deriving DecidableEq

/-- The state of an `OrbitController` together with the driven Scene's
transform (`scene->transform`, written only by `apply()`). -/
@[ext]
structure OrbitState where
  center : Vector3
  azimuth : ℝ
  elevation : ℝ
  distance : ℝ
  oldCenter : Vector3
  oldAzimuth : ℝ
  oldElevation : ℝ
  oldDistance : ℝ
  oldXpos : ℝ
  oldYpos : ℝ
  mode : OrbitMode
  view : Transform

/-- The transform computed by `OrbitController::apply()`:
`Transform({-0.5*pi+elevation, 0, 0}, {0, 0, -distance})
 * Rotation({0, 0, -azimuth}) * Translation(-center)`. -/
def applyView (center : Vector3) (azimuth elevation distance : ℝ) : Transform :=
  ((Transform.setEuler ⟨-(0.5) * Real.pi + elevation, 0, 0⟩ ⟨0, 0, -distance⟩).mul
      (Rotation ⟨0, 0, -azimuth⟩)).mul (Translation (-center))

/-- `OrbitController::apply()` — writes the view transform into the
driven scene. -/
def OrbitState.applyState (s : OrbitState) : OrbitState :=
  { s with view := applyView s.center s.azimuth s.elevation s.distance }

/-- `OrbitController::click(button, action, mods, xpos, ypos)`
(controller.h): on `PGL_PRESS`, snapshot the drag origin and select the
mode by the three sequential button tests; on any other action, go to
`modeNone`. `mods` is unused, as in the source. -/
def OrbitState.click (button action _mods : ℤ) (xpos ypos : ℝ) (s : OrbitState) :
    OrbitState :=
  if action = PGL_PRESS then
    let s1 := { s with oldXpos := xpos, oldYpos := ypos, oldCenter := s.center,
                       oldAzimuth := s.azimuth, oldElevation := s.elevation,
                       oldDistance := s.distance }
    let s2 := if button = PGL_MOUSE_BUTTON_LEFT then { s1 with mode := .modeAngle } else s1
    let s3 := if button = PGL_MOUSE_BUTTON_MIDDLE then { s2 with mode := .modeDistance } else s2
    if button = PGL_MOUSE_BUTTON_RIGHT then { s3 with mode := .modeCenter } else s3
  else
    { s with mode := .modeNone }

/-- `OrbitController::scroll(xoffset, yoffset)`:
`distance *= pow(sqrt(2), -yoffset)` then `apply()`. -/
def OrbitState.scroll (_xoffset yoffset : ℝ) (s : OrbitState) : OrbitState :=
  OrbitState.applyState { s with distance := s.distance * Real.sqrt 2 ^ (-yoffset) }

/-- `OrbitController::motion(xpos, ypos)` (controller.h): update the
parameter selected by the current mode from the drag-origin snapshot,
then `apply()`. The pan uses `Rotation({0,0,-azimuth}) * vector`, i.e.
`Transform::operator*(Vector3)` (`applyVec`). -/
def OrbitState.motion (xpos ypos : ℝ) (s : OrbitState) : OrbitState :=
  OrbitState.applyState <|
    match s.mode with
    | .modeAngle =>
        { s with azimuth := s.oldAzimuth - 0.005 * (xpos - s.oldXpos),
                 elevation := s.oldElevation + 0.005 * (ypos - s.oldYpos) }
    | .modeDistance =>
        { s with distance := s.oldDistance + 0.02 * (ypos - s.oldYpos) }
    | .modeCenter =>
        { s with center := s.oldCenter +
                   (Rotation ⟨0, 0, -s.azimuth⟩).applyVec
                     ((⟨s.oldXpos - xpos, ypos - s.oldYpos, 0⟩ : Vector3).smul 0.02) }
    | .modeNone => s

/-- A pointer event fed to the controller (§6 input contract). -/
inductive OrbitEvent where
  | click (button action mods : ℤ) (xpos ypos : ℝ)
  | scroll (xoffset yoffset : ℝ)
  | motion (xpos ypos : ℝ)

/-- Dispatch one event to the corresponding handler. -/
def OrbitState.step (s : OrbitState) : OrbitEvent → OrbitState
  | .click button action mods xpos ypos => s.click button action mods xpos ypos
  | .scroll xoffset yoffset => s.scroll xoffset yoffset
  | .motion xpos ypos => s.motion xpos ypos

/-- Feed a sequence of events to the controller. -/
def runEvents (evs : List OrbitEvent) (s : OrbitState) : OrbitState :=
  evs.foldl OrbitState.step s

/-- The view transform as worded by the specification:
`ElevationTilt(elevation - pi/2) * Translate(0,0,-distance)
 * AzimuthRotation(-azimuth) * Translate(-center)`, a product of four
separate transforms under the library convention that `A*B` applies `B`
first. Stated from the spec's words, to be compared with `applyView`
(the computation the code performs). -/
def claimedView (center : Vector3) (azimuth elevation distance : ℝ) : Transform :=
  (((Rotation ⟨elevation - Real.pi / 2, 0, 0⟩).mul (Translation ⟨0, 0, -distance⟩)).mul
      (Rotation ⟨0, 0, -azimuth⟩)).mul (Translation (-center))

/-- `OrbitController::view(azimuth, elevation, distance)` — set the three
orbit angles/distance and `apply()`. -/
def OrbitState.viewCall (azimuth elevation distance : ℝ) (s : OrbitState) : OrbitState :=
  OrbitState.applyState
    { s with azimuth := azimuth, elevation := elevation, distance := distance }

/-- Equality of two controller states on everything except the driven
scene transform: the four public orbit parameters, the drag-origin
snapshot, and the mode. -/
def coreEq (a b : OrbitState) : Prop :=
  a.center = b.center ∧ a.azimuth = b.azimuth ∧ a.elevation = b.elevation ∧
  a.distance = b.distance ∧ a.oldCenter = b.oldCenter ∧ a.oldAzimuth = b.oldAzimuth ∧
  a.oldElevation = b.oldElevation ∧ a.oldDistance = b.oldDistance ∧
  a.oldXpos = b.oldXpos ∧ a.oldYpos = b.oldYpos ∧ a.mode = b.mode

/-- `a` lies in the closed interval `[-b, b]`. -/
def within (a b : ℝ) : Prop :=
  -b ≤ a ∧ a ≤ b

/-- `a` equals `+b` or `-b` (the coordinate sits on a face plane). -/
def onFaceCoord (a b : ℝ) : Prop :=
  a = b ∨ a = -b

/-- `v` lies on the surface of the axis-aligned box of half-sizes `s2`
centered at the origin: every coordinate within `±s2` and at least one
coordinate equal to `±s2` on its axis. -/
def onSurface (s2 v : Vector3) : Prop :=
  within v.x s2.x ∧ within v.y s2.y ∧ within v.z s2.z ∧
  (onFaceCoord v.x s2.x ∨ onFaceCoord v.y s2.y ∨ onFaceCoord v.z s2.z)

/-- The list of the first `n` successive 50-byte records of a byte
stream (used to state which triangles a truncated model file yields). -/
def stlChunks : ℕ → List ℕ → List (List ℕ)
  | 0, _ => []
  | n + 1, data => data.take 50 :: stlChunks n (data.drop 50)

end

/-! ## Theorems -/

@[simp]
theorem Vector3.add_x (a b : Vector3) : (a + b).x = a.x + b.x := rfl

@[simp]
theorem Vector3.add_y (a b : Vector3) : (a + b).y = a.y + b.y := rfl

@[simp]
theorem Vector3.add_z (a b : Vector3) : (a + b).z = a.z + b.z := rfl

@[simp]
theorem Vector3.sub_x (a b : Vector3) : (a - b).x = a.x - b.x := rfl

@[simp]
theorem Vector3.sub_y (a b : Vector3) : (a - b).y = a.y - b.y := rfl

@[simp]
theorem Vector3.sub_z (a b : Vector3) : (a - b).z = a.z - b.z := rfl

@[simp]
theorem Vector3.neg_x (a : Vector3) : (-a).x = -a.x := rfl

@[simp]
theorem Vector3.neg_y (a : Vector3) : (-a).y = -a.y := rfl

@[simp]
theorem Vector3.neg_z (a : Vector3) : (-a).z = -a.z := rfl

/-- C7: the axis-angle transform constructed with angle 0 equals the
pure translation exactly — identity rotation block, translation column
`t` and bottom row (0,0,0,1) — for every unit axis, with no division
performed anywhere in the construction. -/
theorem fromAxisAngle_zero_angle (axis t : Vector3) (h : axis.normsq = 1) :
    Transform.setAxisAngle axis 0 t = Translation t ∧
    Translation t = ⟨1, 0, 0, 0, 0, 1, 0, 0, 0, 0, 1, 0, t.x, t.y, t.z, 1⟩ := by
  constructor
  · simp [Transform.setAxisAngle, Translation, Transform.setEuler]
  · simp [Translation, Transform.setEuler]

/-- Witness for C7 at the concrete unit axis (0,0,1) and translation
(1,2,3). -/
theorem fromAxisAngle_zero_angle_witness :
    Transform.setAxisAngle ⟨0, 0, 1⟩ 0 ⟨1, 2, 3⟩ = Translation ⟨1, 2, 3⟩ :=
  (fromAxisAngle_zero_angle ⟨0, 0, 1⟩ ⟨1, 2, 3⟩ (by norm_num [Vector3.normsq])).1

/-- Any negative `endradius` argument of `Cylinder::make` is replaced by
`radius`, so the emitted mesh coincides with the `endradius = radius`
one. -/
theorem cylinderMake_of_neg (length radius e : ℝ) (h : e < 0) :
    cylinderMake length radius e = cylinderMake length radius radius := by
  unfold cylinderMake
  rw [if_pos h, ite_self]

/-- C10: for every length and radius, a Cylinder built with any negative
`endradius` (not only the `-1` default) produces exactly the same mesh
as one built with `endradius = radius`. -/
theorem cylinder_negative_endradius (length radius endradius : ℝ) (h : endradius < 0) :
    cylinderMake length radius endradius = cylinderMake length radius radius :=
  cylinderMake_of_neg length radius endradius h

/-- Witness for C10 at length 3, radius 2, end radius −5. -/
theorem cylinder_negative_endradius_witness :
    cylinderMake 3 2 (-5) = cylinderMake 3 2 2 :=
  cylinder_negative_endradius 3 2 (-5) (by norm_num)

/-- C6: an Arrow built with default head parameters has exactly the two
children `[body, head]`: a Cylinder shaft of the full given length and
radius, and a Cone head of length `6*radius` with radius one third of
that head length, translated by `+length/2` along the shaft axis; and
`Arrow::draw` copies the arrow's current color into both children's
color fields and emits each child's draw commands with that color set
first. -/
theorem arrow_children_and_draw (length radius : ℝ) (a : Arrow) :
    (arrowMake length radius (-1) (-1)).children =
      [(arrowMake length radius (-1) (-1)).body, (arrowMake length radius (-1) (-1)).head] ∧
    (arrowMake length radius (-1) (-1)).body.mesh = cylinderMake length radius radius ∧
    (arrowMake length radius (-1) (-1)).body.transform = Transform.setEuler ⟨0, 0, 0⟩ ⟨0, 0, 0⟩ ∧
    (arrowMake length radius (-1) (-1)).head.mesh =
      cylinderMake (radius * 6) (radius * 6 / 3) 0 ∧
    (arrowMake length radius (-1) (-1)).head.transform = Translation ⟨0, 0, length / 2⟩ ∧
    (arrowDraw a).1.body.color = a.color ∧
    (arrowDraw a).1.head.color = a.color ∧
    (arrowDraw a).2 =
      [RenderCmd.pushMatrix, RenderCmd.multMatrix a.transform,
       RenderCmd.setColor a.color, RenderCmd.pushMatrix,
       RenderCmd.multMatrix a.body.transform, RenderCmd.callList a.body.mesh,
       RenderCmd.popMatrix,
       RenderCmd.setColor a.color, RenderCmd.pushMatrix,
       RenderCmd.multMatrix a.head.transform, RenderCmd.callList a.head.mesh,
       RenderCmd.popMatrix, RenderCmd.popMatrix] := by
  refine ⟨rfl, ?_, rfl, ?_, rfl, rfl, rfl, ?_⟩
  · show cylinderMake length radius (-1) = cylinderMake length radius radius
    exact cylinderMake_of_neg length radius (-1) (by norm_num)
  · norm_num [arrowMake]
  · simp [arrowDraw, arrowSetChildColors, ChildPrim.drawCmds]

/-- A `Transform` built from Euler angles and a translation equals the
pure translation times the pure rotation (its homogeneous matrix has the
rotation block and the translation column side by side). -/
theorem setEuler_eq_translation_mul_rotation (r t : Vector3) :
    Transform.setEuler r t = (Translation t).mul (Rotation r) := by
  simp [Translation, Rotation, Transform.setEuler, Transform.mul]

/-- C1 (amended): after every orbit-parameter change (motion, scroll,
view), the driven scene transform is
`Translate(0,0,-distance) * ElevationTilt(elevation - pi/2)
 * AzimuthRotation(-azimuth) * Translate(-center)` — the translation by
`-distance` composed *after* (to the left of) the elevation tilt, which
is exactly the single `Transform({-0.5*pi+elevation,0,0},{0,0,-distance})`
the code builds. -/
theorem orbit_apply_view_formula :
    (∀ (center : Vector3) (azimuth elevation distance : ℝ),
      applyView center azimuth elevation distance =
        (((Translation ⟨0, 0, -distance⟩).mul
            (Rotation ⟨elevation - Real.pi / 2, 0, 0⟩)).mul
          (Rotation ⟨0, 0, -azimuth⟩)).mul (Translation (-center))) ∧
    (∀ (s : OrbitState) (x y : ℝ),
      (s.motion x y).view =
        applyView (s.motion x y).center (s.motion x y).azimuth
          (s.motion x y).elevation (s.motion x y).distance) ∧
    (∀ (s : OrbitState) (xo yo : ℝ),
      (s.scroll xo yo).view =
        applyView (s.scroll xo yo).center (s.scroll xo yo).azimuth
          (s.scroll xo yo).elevation (s.scroll xo yo).distance) ∧
    (∀ (s : OrbitState) (az el dist : ℝ),
      (s.viewCall az el dist).view =
        applyView (s.viewCall az el dist).center (s.viewCall az el dist).azimuth
          (s.viewCall az el dist).elevation (s.viewCall az el dist).distance) := by
  refine ⟨?_, fun s x y => rfl, fun s xo yo => rfl, fun s az el dist => rfl⟩
  intro c az el d
  unfold applyView
  have hv : (⟨-(0.5) * Real.pi + el, 0, 0⟩ : Vector3) = ⟨el - Real.pi / 2, 0, 0⟩ := by
    refine Vector3.ext ?_ rfl rfl
    ring
  rw [hv, setEuler_eq_translation_mul_rotation]

/-- C1 counterexample: at center 0, azimuth 0, elevation 0, distance 1,
the transform the code applies differs from the product
`ElevationTilt(elevation - pi/2) * Translate(0,0,-distance)
 * AzimuthRotation(-azimuth) * Translate(-center)` stated by the claim
(their translation columns differ: (0,0,-1) against (0,-1,0)). -/
theorem orbit_apply_view_claim_counterexample :
    applyView ⟨0, 0, 0⟩ 0 0 1 ≠ claimedView ⟨0, 0, 0⟩ 0 0 1 := by
  intro h
  have h13 := congrArg Transform.d13 h
  have e1 : -(0.5) * Real.pi + (0 : ℝ) = -(Real.pi / 2) := by ring
  have e2 : (0 : ℝ) - Real.pi / 2 = -(Real.pi / 2) := by ring
  simp only [applyView, claimedView, Transform.setEuler, Rotation, Translation,
    Transform.mul, e1, e2] at h13
  norm_num [Real.sin_pi_div_two, Real.cos_pi_div_two] at h13

/-- C8: `Box({2,2,0.05})` produces exactly 12 triangles (6 quad faces of
2 triangles each), every vertex of which lies on the surface of the
axis-aligned 2×2×0.05 box centered at the origin, and each triangle
carries a flat axis-aligned face normal. -/
theorem box_2_2_005_mesh :
    (boxMake ⟨2, 2, 0.05⟩).length = 12 ∧
    (boxMake ⟨2, 2, 0.05⟩).Forall (fun t =>
      onSurface ⟨1, 1, 0.025⟩ t.v1 ∧ onSurface ⟨1, 1, 0.025⟩ t.v2 ∧
      onSurface ⟨1, 1, 0.025⟩ t.v3 ∧
      (t.n = ⟨0, 0, 1⟩ ∨ t.n = ⟨0, 0, -1⟩ ∨ t.n = ⟨1, 0, 0⟩ ∨
       t.n = ⟨-1, 0, 0⟩ ∨ t.n = ⟨0, 1, 0⟩ ∨ t.n = ⟨0, -1, 0⟩)) := by
  constructor
  · rfl
  · norm_num [boxMake, quadTris, List.Forall, onSurface, within, onFaceCoord, Vector3.sdiv]

/-- The triangle-reading loop of `Model::make`, on a byte stream holding
fewer complete 50-byte records than the remaining iteration count, reads
exactly the complete records present and reports truncation at the index
where the short read happened. -/
theorem modelReadLoop_short (numint : ℕ) :
    ∀ (fuel ii : ℕ) (data : List ℕ), data.length / 50 < fuel →
      (modelReadLoop numint fuel ii data).triangles = stlChunks (data.length / 50) data ∧
      (modelReadLoop numint fuel ii data).diags =
        [.truncatedAt (ii + data.length / 50) numint] := by
  intro fuel
  induction fuel with
  | zero => intro ii data h; omega
  | succ fuel ih =>
      intro ii data h
      by_cases hlen : data.length < 50
      · have hz : data.length / 50 = 0 := Nat.div_eq_of_lt hlen
        rw [modelReadLoop, if_pos hlen, hz]
        exact ⟨rfl, by simp [stlChunks]⟩
      · have hrec := ih (ii + 1) (data.drop 50) (by simp [List.length_drop]; omega)
        have hd : data.length / 50 = (data.length - 50) / 50 + 1 := by omega
        rw [modelReadLoop, if_neg hlen]
        constructor
        · have h1 : (List.drop 50 data).length / 50 = (data.length - 50) / 50 := by
            simp [List.length_drop]
          rw [hd]
          simp only [stlChunks]
          rw [hrec.1, h1]
        · rw [hrec.2]
          have h2 : ii + 1 + (List.drop 50 data).length / 50 = ii + data.length / 50 := by
            simp only [List.length_drop]
            omega
          rw [h2]

/-- C5: for every model byte stream whose declared triangle count
exceeds the number `N` of complete 50-byte records present after the
84-byte header, `Model::make` loads exactly those `N` complete records
and emits the diagnostic reporting the truncation index against the
declared count; the construction is a total function, so it returns
normally with the partial geometry. -/
theorem model_truncated_loads_complete_records (bytes : List ℕ)
    (h84 : 84 ≤ bytes.length)
    (hN : (bytes.length - 84) / 50 < stlCount bytes) :
    (modelMake bytes).triangles = stlChunks ((bytes.length - 84) / 50) (bytes.drop 84) ∧
    (modelMake bytes).triangles.length = (bytes.length - 84) / 50 ∧
    (modelMake bytes).diags =
      [.truncatedAt ((bytes.length - 84) / 50) (stlCount bytes)] := by
  unfold modelMake
  rw [if_neg (by omega)]
  have h := modelReadLoop_short (stlCount bytes) (stlCount bytes) 0 (bytes.drop 84)
    (by simp [List.length_drop]; omega)
  simp only [List.length_drop] at h
  refine ⟨h.1, ?_, by simpa using h.2⟩
  rw [h.1]
  clear h hN h84
  generalize (bytes.length - 84) / 50 = n
  generalize bytes.drop 84 = data
  induction n generalizing data with
  | zero => rfl
  | succ n ih => simp [stlChunks, ih]

set_option maxRecDepth 8192 in
/-- Witness for C5: a stream with an 80-byte header, declared count 2,
one complete 50-byte record and 10 trailing bytes loads exactly one
triangle and reports truncation at record 1 of 2. -/
theorem model_truncated_witness :
    (modelMake (List.replicate 80 0 ++ [2, 0, 0, 0] ++ List.replicate 60 7)).triangles.length
        = 1 ∧
    (modelMake (List.replicate 80 0 ++ [2, 0, 0, 0] ++ List.replicate 60 7)).diags =
      [.truncatedAt 1 2] := by
  have h := model_truncated_loads_complete_records
    (List.replicate 80 0 ++ [2, 0, 0, 0] ++ List.replicate 60 7) (by decide) (by decide)
  have e1 : ((List.replicate 80 0 ++ [2, 0, 0, 0] ++ List.replicate 60 7).length - 84) / 50
      = 1 := by decide
  have e2 : stlCount (List.replicate 80 0 ++ [2, 0, 0, 0] ++ List.replicate 60 7) = 2 := by
    decide
  rw [e1, e2] at h
  exact ⟨h.2.1, h.2.2⟩

/-- The first vertex submitted by `Sphere::make(2)` is position
(0,0,-2) with normal (0,0,-1/2). -/
theorem pair_mem_sphereMake_two :
    (⟨⟨0, 0, -2⟩, ⟨0, 0, -(1 / 2)⟩⟩ : Vector3 × Vector3) ∈ sphereMake 2 := by
  unfold sphereMake
  rw [List.mem_flatMap]
  refine ⟨0, by norm_num [FACETS], ?_⟩
  rw [List.mem_flatMap]
  refine ⟨0, by norm_num [FACETS], ?_⟩
  simp only [sphereQuad, sphereTri, List.mem_append, List.mem_cons, List.not_mem_nil,
    or_false]
  left
  norm_num [sphereVertex, primNormal, Vector3.normsq, Vector3.sdiv, Prod.ext_iff]

/-- C2 counterexample: the normal that `Sphere::make(2)` submits with
the vertex (0,0,-2) is (0,0,-1/2), which is not the unit-length
normalization (0,0,-1) of the vertex position. -/
theorem sphere_normal_not_unit_counterexample :
    (⟨⟨0, 0, -2⟩, ⟨0, 0, -(1 / 2)⟩⟩ : Vector3 × Vector3) ∈ sphereMake 2 ∧
    unitNormalize ⟨0, 0, -2⟩ = ⟨0, 0, -1⟩ ∧
    (⟨0, 0, -(1 / 2)⟩ : Vector3) ≠ ⟨0, 0, -1⟩ := by
  refine ⟨pair_mem_sphereMake_two, ?_, ?_⟩
  · have h4 : Real.sqrt 4 = 2 := by
      rw [show (4 : ℝ) = 2 ^ 2 by norm_num, Real.sqrt_sq (by norm_num)]
    norm_num [unitNormalize, Vector3.norm, Vector3.normsq, Vector3.sdiv, h4]
  · intro h
    have hz := congrArg Vector3.z h
    norm_num at hz

/-- Every vertex pair emitted by `Sphere`'s `quad` carries the
`Primitive::normal` of its own position. -/
theorem sphereQuad_normals (a b c d : Vector3) :
    ∀ p ∈ sphereQuad a b c d, p.2 = primNormal p.1 := by
  intro p hp
  have hall : List.Forall (fun q : Vector3 × Vector3 => q.2 = primNormal q.1)
      (sphereQuad a b c d) := by
    simp [sphereQuad, sphereTri, sphereVertex, List.Forall]
  exact List.forall_iff_forall_mem.mp hall p hp

/-- Every vertex pair emitted by `Cylinder`'s `quad` carries the
`Primitive::normal` of its own XY-projection. -/
theorem cylQuad_normals (a b c d : Vector3) :
    ∀ p ∈ cylQuad a b c d, p.2 = primNormal ⟨p.1.x, p.1.y, 0⟩ := by
  intro p hp
  have hall : List.Forall
      (fun q : Vector3 × Vector3 => q.2 = primNormal ⟨q.1.x, q.1.y, 0⟩)
      (cylQuad a b c d) := by
    simp [cylQuad, cylTri, cylVertex, List.Forall]
  exact List.forall_iff_forall_mem.mp hall p hp

/-- C2 (amended): every vertex of a Sphere mesh is submitted with normal
`primNormal v = v / |v|²` (of the vertex position), every lateral
Cylinder-body vertex with `primNormal` of the vertex's XY-projection;
and on a nonzero input `primNormal` is the unit-length normalization
scaled by `1/|v|` — parallel to the spec's normalized vector but of unit
length only when `|v| = 1`. -/
theorem sphere_cylinder_normal_is_scaled_normalize (r : ℝ) :
    (∀ p ∈ sphereMake r, p.2 = primNormal p.1) ∧
    (∀ (length radius endradius : ℝ), ∀ p ∈ cylinderBody length radius endradius,
      p.2 = primNormal ⟨p.1.x, p.1.y, 0⟩) ∧
    (∀ v : Vector3, v.normsq ≠ 0 →
      primNormal v = (unitNormalize v).sdiv v.norm) := by
  refine ⟨?_, ?_, ?_⟩
  · intro p hp
    unfold sphereMake at hp
    simp only [List.mem_flatMap, List.mem_range] at hp
    obtain ⟨jj, -, ii, -, hp⟩ := hp
    exact sphereQuad_normals _ _ _ _ p hp
  · intro length radius endradius p hp
    unfold cylinderBody at hp
    simp only [List.mem_flatMap, List.mem_range] at hp
    obtain ⟨ii, -, hp⟩ := hp
    exact cylQuad_normals _ _ _ _ p hp
  · intro v hv
    have h0 : 0 ≤ v.normsq := by
      have hx := mul_self_nonneg v.x
      have hy := mul_self_nonneg v.y
      have hz := mul_self_nonneg v.z
      unfold Vector3.normsq
      linarith
    have hsq : Real.sqrt v.normsq * Real.sqrt v.normsq = v.normsq :=
      Real.mul_self_sqrt h0
    unfold primNormal unitNormalize Vector3.sdiv Vector3.norm
    simp only [Vector3.mk.injEq]
    refine ⟨?_, ?_, ?_⟩ <;> rw [div_div, hsq]

/-- Witness for C2 (amended) at the first Sphere(2) vertex and the
concrete nonzero vector (0,0,-2). -/
theorem sphere_cylinder_normal_witness :
    (⟨⟨0, 0, -2⟩, ⟨0, 0, -(1 / 2)⟩⟩ : Vector3 × Vector3).2 = primNormal ⟨0, 0, -2⟩ ∧
    primNormal ⟨0, 0, -2⟩ =
      (unitNormalize ⟨0, 0, -2⟩).sdiv ((⟨0, 0, -2⟩ : Vector3).norm) := by
  have h := sphere_cylinder_normal_is_scaled_normalize 2
  exact ⟨h.1 _ pair_mem_sphereMake_two,
    h.2.2 ⟨0, 0, -2⟩ (by norm_num [Vector3.normsq])⟩

/-- A press event with one of the three known buttons leaves two
controllers with equal orbit parameters in states that agree on
everything except possibly the driven scene transform. -/
theorem click_press_coreEq (s1 s2 : OrbitState)
    (hc : s1.center = s2.center) (ha : s1.azimuth = s2.azimuth)
    (he : s1.elevation = s2.elevation) (hd : s1.distance = s2.distance)
    (button mods : ℤ)
    (hb : button = PGL_MOUSE_BUTTON_LEFT ∨ button = PGL_MOUSE_BUTTON_MIDDLE ∨
      button = PGL_MOUSE_BUTTON_RIGHT)
    (x y : ℝ) :
    coreEq (s1.click button PGL_PRESS mods x y) (s2.click button PGL_PRESS mods x y) := by
  unfold OrbitState.click coreEq
  rw [if_pos rfl, if_pos rfl]
  rcases hb with rfl | rfl | rfl <;>
    norm_num [PGL_MOUSE_BUTTON_LEFT, PGL_MOUSE_BUTTON_MIDDLE, PGL_MOUSE_BUTTON_RIGHT,
      hc, ha, he, hd]

/-- A motion event maps two states that agree on everything but the
scene transform to fully equal states, because the handler reads only
those fields and overwrites the transform via `apply()`. -/
theorem motion_coreEq_full (s1 s2 : OrbitState) (h : coreEq s1 s2) (x y : ℝ) :
    s1.motion x y = s2.motion x y := by
  obtain ⟨hc, ha, he, hd, hoc, hoa, hoe, hod, hox, hoy, hm⟩ := h
  unfold OrbitState.motion OrbitState.applyState
  rw [hm]
  cases h2 : s2.mode <;>
    · ext <;> simp [applyView, hc, ha, he, hd, hoc, hoa, hoe, hod, hox, hoy, hm, h2]

/-- C9: two OrbitControllers with identical (center, azimuth, elevation,
distance), fed the same press (with a primary, secondary or tertiary
button), the same nonempty drag-motion sequence and the same release,
end in fully identical states — identical orbit parameters and identical
final view transforms; the handlers are deterministic functions of the
controller state and event arguments alone. -/
theorem orbit_replay_deterministic (s1 s2 : OrbitState)
    (hc : s1.center = s2.center) (ha : s1.azimuth = s2.azimuth)
    (he : s1.elevation = s2.elevation) (hd : s1.distance = s2.distance)
    (button mods : ℤ)
    (hb : button = PGL_MOUSE_BUTTON_LEFT ∨ button = PGL_MOUSE_BUTTON_MIDDLE ∨
      button = PGL_MOUSE_BUTTON_RIGHT)
    (px py : ℝ) (moves : List (ℝ × ℝ)) (hm : moves ≠ [])
    (button2 mods2 : ℤ) (rx ry : ℝ) :
    runEvents (OrbitEvent.click button PGL_PRESS mods px py ::
        ((moves.map fun m => OrbitEvent.motion m.1 m.2) ++
          [OrbitEvent.click button2 PGL_RELEASE mods2 rx ry])) s1 =
    runEvents (OrbitEvent.click button PGL_PRESS mods px py ::
        ((moves.map fun m => OrbitEvent.motion m.1 m.2) ++
          [OrbitEvent.click button2 PGL_RELEASE mods2 rx ry])) s2 := by
  obtain ⟨m, rest, rfl⟩ : ∃ m rest, moves = m :: rest := by
    cases moves with
    | nil => exact absurd rfl hm
    | cons m rest => exact ⟨m, rest, rfl⟩
  have h1 := click_press_coreEq s1 s2 hc ha he hd button mods hb px py
  have h2 := motion_coreEq_full _ _ h1 m.1 m.2
  simp only [runEvents, List.map_cons, List.cons_append, List.foldl_cons, OrbitState.step]
  rw [h2]

/-- Witness for C9: two concrete controllers sharing the four orbit
parameters but differing in drag-origin snapshot, mode and scene
transform end in the same state after press, drag and release. -/
theorem orbit_replay_deterministic_witness :
    runEvents [OrbitEvent.click 0 1 0 5 6, OrbitEvent.motion 7 8,
        OrbitEvent.click 0 0 0 7 8]
      ⟨⟨0, 0, 0⟩, 1, 1, 2, ⟨0, 0, 0⟩, 0, 0, 0, 0, 0, .modeNone, Translation ⟨0, 0, 0⟩⟩ =
    runEvents [OrbitEvent.click 0 1 0 5 6, OrbitEvent.motion 7 8,
        OrbitEvent.click 0 0 0 7 8]
      ⟨⟨0, 0, 0⟩, 1, 1, 2, ⟨1, 1, 1⟩, 3, 3, 3, 3, 3, .modeCenter, Translation ⟨1, 2, 3⟩⟩ :=
  orbit_replay_deterministic
    ⟨⟨0, 0, 0⟩, 1, 1, 2, ⟨0, 0, 0⟩, 0, 0, 0, 0, 0, .modeNone, Translation ⟨0, 0, 0⟩⟩
    ⟨⟨0, 0, 0⟩, 1, 1, 2, ⟨1, 1, 1⟩, 3, 3, 3, 3, 3, .modeCenter, Translation ⟨1, 2, 3⟩⟩
    rfl rfl rfl rfl 0 0 (Or.inl rfl) 5 6 [(7, 8)] (by simp) 0 0 7 8

/-- C3: evaluation of `Primitive::align((0,0,0), (0,1,1))` at the
failing input. The returned length `|end-start| = sqrt 2` is correct and
the near axial extreme (the canonical point `(0,0,-len/2)`) lands at
`start`, but the far axial extreme `(0,0,len/2)` lands at
`(0, sqrt2/2, 1) ≈ (0, 0.707, 1)` instead of `end = (0,1,1)`: the
Rodrigues construction is fed the unnormalized rotation axis
`(-vec.y, vec.x, 0)` (of length `sin(angle)`), so the resulting matrix
is not the intended rotation. -/
theorem align_misplaces_far_extreme :
    alignLen ⟨0, 0, 0⟩ ⟨0, 1, 1⟩ = Real.sqrt 2 ∧
    (alignTransform ⟨0, 0, 0⟩ ⟨0, 1, 1⟩).applyPoint ⟨0, 0, -(Real.sqrt 2 / 2)⟩ =
      ⟨0, 0, 0⟩ ∧
    (alignTransform ⟨0, 0, 0⟩ ⟨0, 1, 1⟩).applyPoint ⟨0, 0, Real.sqrt 2 / 2⟩ =
      ⟨0, Real.sqrt 2 / 2, 1⟩ ∧
    (⟨0, Real.sqrt 2 / 2, 1⟩ : Vector3) ≠ ⟨0, 1, 1⟩ := by
  have hq2 : Real.sqrt 2 * Real.sqrt 2 = 2 := Real.mul_self_sqrt (by norm_num)
  have hqn : (0 : ℝ) ≤ Real.sqrt 2 := Real.sqrt_nonneg 2
  have hq1 : (1 : ℝ) ≤ Real.sqrt 2 := by nlinarith
  have hq0 : Real.sqrt 2 ≠ 0 := by nlinarith
  have hvec0 : (⟨0, 1, 1⟩ : Vector3) - ⟨0, 0, 0⟩ = ⟨0, 1, 1⟩ := by
    ext <;> norm_num
  have hnorm : (⟨0, 1, 1⟩ : Vector3).norm = Real.sqrt 2 := by
    unfold Vector3.norm Vector3.normsq
    norm_num
  have hvec : (⟨0, 1, 1⟩ : Vector3).sdiv (Real.sqrt 2) =
      ⟨0, (Real.sqrt 2)⁻¹, (Real.sqrt 2)⁻¹⟩ := by
    unfold Vector3.sdiv
    norm_num [one_div]
  have hinv1 : (Real.sqrt 2)⁻¹ ≤ 1 := by
    rw [inv_eq_one_div, div_le_one (by nlinarith)]
    exact hq1
  have hcos : Real.cos (Real.arccos ((Real.sqrt 2)⁻¹)) = (Real.sqrt 2)⁻¹ :=
    Real.cos_arccos
      (by have h0 : (0 : ℝ) ≤ (Real.sqrt 2)⁻¹ := by positivity
          linarith)
      hinv1
  have hsin : Real.sin (Real.arccos ((Real.sqrt 2)⁻¹)) = (Real.sqrt 2)⁻¹ := by
    rw [Real.sin_arccos]
    have hsq : (1 : ℝ) - ((Real.sqrt 2)⁻¹) ^ 2 = 2⁻¹ := by
      have h2 : (Real.sqrt 2) ^ 2 = 2 := Real.sq_sqrt (by norm_num)
      rw [← one_div, div_pow, one_pow, h2]
      norm_num
    rw [hsq, Real.sqrt_inv]
  have hlen : alignLen ⟨0, 0, 0⟩ ⟨0, 1, 1⟩ = Real.sqrt 2 := by
    unfold alignLen
    rw [hvec0, hnorm]
  refine ⟨hlen, ?_, ?_, ?_⟩
  · simp only [alignTransform, hvec0, hnorm, hvec]
    simp only [Transform.setAxisAngle, Translation, Transform.setEuler, Transform.mul,
      Transform.applyPoint, hcos, hsin, Real.sin_zero, Real.cos_zero]
    ext <;> simp <;> field_simp <;> ring
  · simp only [alignTransform, hvec0, hnorm, hvec]
    simp only [Transform.setAxisAngle, Translation, Transform.setEuler, Transform.mul,
      Transform.applyPoint, hcos, hsin, Real.sin_zero, Real.cos_zero]
    ext <;> simp <;> field_simp <;> nlinarith [hq2]
  · intro h
    have hy := congrArg Vector3.y h
    simp only at hy
    nlinarith [hq2]

/-- The state adjustment at the top of iteration `jj` of the
`Capsule::make` loop turns the closed-form state of the previous
iteration into the closed-form state of iteration `jj`. -/
theorem capStep_closed (length : ℝ) (jj : ℕ) :
    capStep length jj (capStateAt length (jj - 1)) = capStateAt length jj := by
  have h54 : FACETS / 4 = 5 := by norm_num [FACETS]
  unfold capStep capStateAt
  rw [h54]
  rcases eq_or_ne jj 5 with rfl | h5
  · norm_num
    ring
  rcases eq_or_ne jj 6 with rfl | h6
  · norm_num
    ring
  · rw [if_neg h5, if_neg (by omega : ¬jj = 5 + 1)]
    have e1 : jj - 1 < 5 + 1 ↔ jj < 5 + 1 := by omega
    have e2 : jj - 1 < 5 ↔ jj < 5 := by omega
    simp only [e1, e2]

/-- Closed form of the whole `Capsule::make` ring loop: starting at ring
`jj` in the state of ring `jj - 1`, it emits the bands of rings
`jj, jj+1, …` each in its closed-form state. -/
theorem capsuleLoop_closed (length radius : ℝ) :
    ∀ (fuel jj : ℕ),
      capsuleLoop length radius jj fuel (capStateAt length (jj - 1)) =
        (List.range fuel).flatMap
          (fun i => capBand radius (jj + i) (capStateAt length (jj + i))) := by
  intro fuel
  induction fuel with
  | zero => intro jj; rfl
  | succ fuel ih =>
      intro jj
      rw [capsuleLoop, capStep_closed]
      have ih1 := ih (jj + 1)
      simp only [Nat.add_sub_cancel] at ih1
      rw [ih1, List.range_succ_eq_map, List.flatMap_cons, List.flatMap_map]
      simp only [Nat.add_zero, Function.comp, Nat.succ_eq_add_one]
      have he : (fun i : ℕ => capBand radius (jj + 1 + i) (capStateAt length (jj + 1 + i))) =
          fun i : ℕ => capBand radius (jj + (i + 1)) (capStateAt length (jj + (i + 1))) := by
        funext i
        have hi : jj + 1 + i = jj + (i + 1) := by omega
        rw [hi]
      rw [he]

/-- `Capsule::make` equals the flatMap of its bands in closed form. -/
theorem capsuleMake_eq (length radius : ℝ) :
    capsuleMake length radius =
      (List.range (FACETS / 2 + 1)).flatMap
        (fun jj => capBand radius jj (capStateAt length jj)) := by
  have h := capsuleLoop_closed length radius (FACETS / 2 + 1) 0
  simp only [Nat.zero_sub, zero_add] at h
  unfold capsuleMake
  have hinit : (⟨0, 1, -length / 2, -length / 2⟩ : CapState) = capStateAt length 0 := by
    unfold capStateAt
    norm_num [FACETS]
  rw [hinit]
  exact h

/-- Every vertex pair emitted by `Capsule`'s `quad` carries the
`Primitive::normal` of its position relative to one of the two per-row Z
offsets the quad was given. -/
theorem capQuad_forms (a : Vector3) (za : ℝ) (b : Vector3) (zb : ℝ) (c : Vector3)
    (zc : ℝ) (d : Vector3) (zd : ℝ) :
    ∀ p ∈ capQuad a za b zb c zc d zd,
      p.2 = primNormal ⟨p.1.x, p.1.y, p.1.z - za⟩ ∨
      p.2 = primNormal ⟨p.1.x, p.1.y, p.1.z - zb⟩ ∨
      p.2 = primNormal ⟨p.1.x, p.1.y, p.1.z - zc⟩ ∨
      p.2 = primNormal ⟨p.1.x, p.1.y, p.1.z - zd⟩ := by
  intro p hp
  have hall : List.Forall
      (fun q : Vector3 × Vector3 =>
        q.2 = primNormal ⟨q.1.x, q.1.y, q.1.z - za⟩ ∨
        q.2 = primNormal ⟨q.1.x, q.1.y, q.1.z - zb⟩ ∨
        q.2 = primNormal ⟨q.1.x, q.1.y, q.1.z - zc⟩ ∨
        q.2 = primNormal ⟨q.1.x, q.1.y, q.1.z - zd⟩)
      (capQuad a za b zb c zc d zd) := by
    simp [capQuad, capTri, capVertex, List.Forall]
  exact List.forall_iff_forall_mem.mp hall p hp

/-- C4: the `Capsule::make` loop runs the rings in the closed-form
states — both ring rows carry the bottom-cap Z offset `-length/2` until
the ring index reaches `FACETS/4`, where the second row switches to the
top-cap offset `+length/2`, followed one ring later by the first row —
and every vertex of the mesh is submitted with the `Primitive::normal`
of `vertex - (0,0,zOffsetOfItsRing)`, the vector from its ring's local
hemisphere center, never of the absolute vertex position: its normal
argument is the position shifted by `+length/2` (bottom frame) or
`-length/2` (top frame). -/
theorem capsule_normal_uses_ring_center (length radius : ℝ) :
    capsuleMake length radius =
      ((List.range (FACETS / 2 + 1)).flatMap
        (fun jj => capBand radius jj (capStateAt length jj))) ∧
    ∀ p ∈ capsuleMake length radius,
      p.2 = primNormal ⟨p.1.x, p.1.y, p.1.z + length / 2⟩ ∨
      p.2 = primNormal ⟨p.1.x, p.1.y, p.1.z - length / 2⟩ := by
  refine ⟨capsuleMake_eq length radius, ?_⟩
  intro p hp
  rw [capsuleMake_eq] at hp
  simp only [List.mem_flatMap, List.mem_range] at hp
  obtain ⟨jj, -, hp⟩ := hp
  unfold capBand at hp
  simp only [List.mem_flatMap, List.mem_range] at hp
  obtain ⟨ii, -, hp⟩ := hp
  have hforms := capQuad_forms _ _ _ _ _ _ _ _ p hp
  have hz1 : (capStateAt length jj).zadj1 = -length / 2 ∨
      (capStateAt length jj).zadj1 = length / 2 := by
    unfold capStateAt
    split_ifs <;> simp
  have hz2 : (capStateAt length jj).zadj2 = -length / 2 ∨
      (capStateAt length jj).zadj2 = length / 2 := by
    unfold capStateAt
    split_ifs <;> simp
  have key : ∀ z : ℝ, z = -length / 2 ∨ z = length / 2 →
      p.2 = primNormal ⟨p.1.x, p.1.y, p.1.z - z⟩ →
      p.2 = primNormal ⟨p.1.x, p.1.y, p.1.z + length / 2⟩ ∨
      p.2 = primNormal ⟨p.1.x, p.1.y, p.1.z - length / 2⟩ := by
    rintro z (rfl | rfl) hpz
    · left
      have harg : p.1.z - -length / 2 = p.1.z + length / 2 := by ring
      rwa [harg] at hpz
    · right
      exact hpz
  rcases hforms with h | h | h | h
  · exact key _ hz1 h
  · exact key _ hz1 h
  · exact key _ hz2 h
  · exact key _ hz2 h

/-- The first vertex submitted by `Capsule::make(2, 1)` is position
(0,0,-2) with normal (0,0,-1) — computed from the bottom hemisphere
center (0,0,-1), not from the absolute position. -/
theorem cap_pair_mem :
    (⟨⟨0, 0, -2⟩, ⟨0, 0, -1⟩⟩ : Vector3 × Vector3) ∈ capsuleMake 2 1 := by
  rw [capsuleMake_eq]
  rw [List.mem_flatMap]
  refine ⟨0, by norm_num [FACETS], ?_⟩
  unfold capBand
  rw [List.mem_flatMap]
  refine ⟨0, by norm_num [FACETS], ?_⟩
  simp only [capQuad, capTri, List.mem_append, List.mem_cons, List.not_mem_nil, or_false]
  left
  norm_num [capVertex, primNormal, capStateAt, Vector3.normsq, Vector3.sdiv, Prod.ext_iff]

/-- Witness for C4: the theorem applied at length 2, radius 1 and the
first submitted vertex. -/
theorem capsule_normal_witness :
    capsuleMake 2 1 =
      ((List.range (FACETS / 2 + 1)).flatMap
        (fun jj => capBand 1 jj (capStateAt 2 jj))) ∧
    ((⟨⟨0, 0, -2⟩, ⟨0, 0, -1⟩⟩ : Vector3 × Vector3).2 =
        primNormal ⟨(⟨0, 0, -2⟩ : Vector3).x, (⟨0, 0, -2⟩ : Vector3).y,
          (⟨0, 0, -2⟩ : Vector3).z + 2 / 2⟩ ∨
     (⟨⟨0, 0, -2⟩, ⟨0, 0, -1⟩⟩ : Vector3 × Vector3).2 =
        primNormal ⟨(⟨0, 0, -2⟩ : Vector3).x, (⟨0, 0, -2⟩ : Vector3).y,
          (⟨0, 0, -2⟩ : Vector3).z - 2 / 2⟩) :=
  ⟨(capsule_normal_uses_ring_center 2 1).1,
   (capsule_normal_uses_ring_center 2 1).2 _ cap_pair_mem⟩

end PGL
